import Mathlib

set_option maxRecDepth 20000

/-!
Verification of the acertmgr configuration-resolution engine and certificate
lifecycle orchestration (files `acertmgr/configuration.py` and
`acertmgr/__init__.py`) against its natural-language specification.

The Python code is shallowly embedded: dictionaries become association lists
over a flat value type `PyVal`, exceptions become `Except`, the filesystem
becomes an association list from paths to file data, and external
collaborators that are part of the repository but absent from the provided
sources (the `tools` module) are modelled from the specification where a
claim needs them (marked `Modelled from the spec:`).
-/

namespace Acertmgr

/- ===== Byte-level string model =====
Python strings are sequences of unicode code points; `domains.encode("utf-8")`
produces the UTF-8 bytes that are hashed.  We model bytes as `Nat` values
below 256. -/

/-- UTF-8 encoding of a single code point, as a list of byte values. -/
def utf8Bytes (c : Nat) : List Nat :=
  if c < 128 then [c]
  else if c < 2048 then [192 + c / 64, 128 + c % 64]
  else if c < 65536 then [224 + c / 4096, 128 + (c / 64) % 64, 128 + c % 64]
  else [240 + c / 262144, 128 + (c / 4096) % 64, 128 + (c / 64) % 64, 128 + c % 64]

/-- The UTF-8 bytes of a string (the model of `s.encode("utf-8")`). -/
def stringBytes (s : String) : List Nat :=
  s.data.foldr (fun c acc => utf8Bytes c.toNat ++ acc) []

/- ===== String helpers mirroring the Python operations used by the source.
All are written over the character list so that concrete evaluation inside the
kernel is cheap and predictable. ===== -/

/-- Split a character list at every occurrence of the separator character
(the model of Python `str.split(sep)` with an explicit one-character
separator: consecutive separators yield empty fields). -/
def splitCharsOn (sep : Char) : List Char → List (List Char)
  | [] => [[]]
  | c :: cs =>
    match splitCharsOn sep cs with
    | [] => [[]]
    | field :: rest => if c = sep then [] :: field :: rest else (c :: field) :: rest

/-- Python `s.split(sep)` for a one-character separator. -/
def pySplit (sep : Char) (s : String) : List String :=
  (splitCharsOn sep s.data).map (fun l => String.mk l)

/-- Python `sep.join(xs)` for a one-character separator. -/
def pyJoin (sep : Char) (xs : List String) : String :=
  match xs with
  | [] => ""
  | x :: rest => rest.foldl (fun acc y => acc ++ String.mk [sep] ++ y) x

/-- Python `"".join(xs)`. -/
def pyConcat (xs : List String) : String := xs.foldl (fun acc y => acc ++ y) ""

/-- Python `str.strip()` restricted to ASCII whitespace. -/
def pyStrip (s : String) : String :=
  let ws : Char → Bool := fun c => c = ' ' || c = '\t' || c = '\n' || c = '\r'
  String.mk (((s.data.dropWhile ws).reverse.dropWhile ws).reverse)

/-- Whether `needle` occurs as a contiguous substring of `hay`
(the model of Python `needle in hay` for strings). -/
def strContainsSub (hay needle : String) : Bool :=
  (List.range (hay.data.length + 1)).any
    (fun i => List.isPrefixOf needle.data (hay.data.drop i))

/-- Whether `s` ends with `suffix` (the model of Python `s.endswith(suffix)`). -/
def strEndsWith (s suffix : String) : Bool :=
  List.isPrefixOf suffix.data.reverse s.data.reverse

/-- Whether `s` starts with `pre` (the model of Python `s.startswith(pre)`). -/
def strStartsWith (s pre : String) : Bool :=
  List.isPrefixOf pre.data s.data

/-- Drop the first `n` characters (Python `s[n:]`). -/
def strDrop (s : String) (n : Nat) : String := String.mk (s.data.drop n)

/-- Whether any character of `s` has a code point of 128 or more
(the model of `any(ord(c) >= 128 for c in s)`). -/
def hasNonAscii (s : String) : Bool := s.data.any (fun c => 128 ≤ c.toNat)

/- ===== MD5 (RFC 1321), over byte lists =====
`hashlib.md5(...).hexdigest()` is the identifier derivation used by
`parse_config_entry`; it is reproduced here bit-for-bit with `Nat`
arithmetic modulo 2 to the 32. -/

namespace MD5

def mask32 : Nat := 4294967295

def add32 (a b : Nat) : Nat := (a + b) % 4294967296

def not32 (x : Nat) : Nat := Nat.xor x mask32

def rotl32 (x n : Nat) : Nat :=
  Nat.land (Nat.lor (Nat.shiftLeft x n) (Nat.shiftRight x (32 - n))) mask32

def shiftTable : List Nat :=
  [7, 12, 17, 22, 7, 12, 17, 22, 7, 12, 17, 22, 7, 12, 17, 22,
   5, 9, 14, 20, 5, 9, 14, 20, 5, 9, 14, 20, 5, 9, 14, 20,
   4, 11, 16, 23, 4, 11, 16, 23, 4, 11, 16, 23, 4, 11, 16, 23,
   6, 10, 15, 21, 6, 10, 15, 21, 6, 10, 15, 21, 6, 10, 15, 21]

def sineTable : List Nat :=
  [3614090360, 3905402710, 606105819, 3250441966,
   4118548399, 1200080426, 2821735955, 4249261313,
   1770035416, 2336552879, 4294925233, 2304563134,
   1804603682, 4254626195, 2792965006, 1236535329,
   4129170786, 3225465664, 643717713, 3921069994,
   3593408605, 38016083, 3634488961, 3889429448,
   568446438, 3275163606, 4107603335, 1163531501,
   2850285829, 4243563512, 1735328473, 2368359562,
   4294588738, 2272392833, 1839030562, 4259657740,
   2763975236, 1272893353, 4139469664, 3200236656,
   681279174, 3936430074, 3572445317, 76029189,
   3654602809, 3873151461, 530742520, 3299628645,
   4096336452, 1126891415, 2878612391, 4237533241,
   1700485571, 2399980690, 4293915773, 2240044497,
   1873313359, 4264355552, 2734768916, 1309151649,
   4149444226, 3174756917, 718787259, 3951481745]

def nth (l : List Nat) (i : Nat) : Nat := (l.get? i).getD 0

/-- Decode a 64-byte block into sixteen little-endian 32-bit words. -/
def blockWords (block : List Nat) : List Nat :=
  (List.range 16).map (fun j =>
    nth block (4 * j) + 256 * nth block (4 * j + 1) +
      65536 * nth block (4 * j + 2) + 16777216 * nth block (4 * j + 3))

structure St where
  a : Nat
  b : Nat
  c : Nat
  d : Nat
deriving Repr, DecidableEq

def initSt : St := ⟨1732584193, 4023233417, 2562383102, 271733878⟩

def round (M : List Nat) (st : St) (i : Nat) : St :=
  let fg : Nat × Nat :=
    if i < 16 then
      (Nat.lor (Nat.land st.b st.c) (Nat.land (not32 st.b) st.d), i)
    else if i < 32 then
      (Nat.lor (Nat.land st.d st.b) (Nat.land (not32 st.d) st.c), (5 * i + 1) % 16)
    else if i < 48 then
      (Nat.xor (Nat.xor st.b st.c) st.d, (3 * i + 5) % 16)
    else
      (Nat.xor st.c (Nat.lor st.b (not32 st.d)), (7 * i) % 16)
  let f := add32 (add32 (add32 fg.1 st.a) (nth sineTable i)) (nth M fg.2)
  ⟨st.d, add32 st.b (rotl32 f (nth shiftTable i)), st.b, st.c⟩

def processBlock (st : St) (block : List Nat) : St :=
  let M := blockWords block
  let r := (List.range 64).foldl (round M) st
  ⟨add32 st.a r.a, add32 st.b r.b, add32 st.c r.c, add32 st.d r.d⟩

/-- Append the MD5 padding: a 128 byte, zeros to 56 mod 64, then the
original bit length as eight little-endian bytes. -/
def padMsg (msg : List Nat) : List Nat :=
  let len := msg.length
  let zeros := (119 - len % 64) % 64
  msg ++ [128] ++ List.replicate zeros 0 ++
    (List.range 8).map (fun i => Nat.shiftRight (len * 8) (8 * i) % 256)

def chunksAux : Nat → List Nat → List (List Nat)
  | 0, _ => []
  | _ + 1, [] => []
  | fuel + 1, l => l.take 64 :: chunksAux fuel (l.drop 64)

def chunks (l : List Nat) : List (List Nat) := chunksAux l.length l

def wordBytes (w : Nat) : List Nat :=
  [w % 256, w / 256 % 256, w / 65536 % 256, w / 16777216 % 256]

def hexDigit (n : Nat) : Char :=
  if n < 10 then Char.ofNat (48 + n) else Char.ofNat (87 + n)

def bytesToHex (bs : List Nat) : String :=
  String.mk (bs.foldr (fun b acc => hexDigit (b / 16) :: hexDigit (b % 16) :: acc) [])

/-- The MD5 hex digest of a byte list (model of
`hashlib.md5(bytes).hexdigest()`). -/
def md5Hex (msg : List Nat) : String :=
  let st := (chunks (padMsg msg)).foldl processBlock initSt
  bytesToHex (wordBytes st.a ++ wordBytes st.b ++ wordBytes st.c ++ wordBytes st.d)

end MD5

/-- MD5 hex digest of the UTF-8 encoding of a string: this is exactly
`hashlib.md5(s.encode("utf-8")).hexdigest()`. -/
def md5HexOfString (s : String) : String := MD5.md5Hex (stringBytes s)

/- ===== Python dictionary and value model ===== -/

/-- Flat Python values as they occur in the configuration documents:
strings, integers and None.  The one nested value in a global document, the
`defaults` mapping, is carried as a separate field of `GlobalConfig`. -/
inductive PyVal where
  | pstr (s : String)
  | pint (n : Int)
  | pnone
deriving DecidableEq, Repr, Inhabited

/-- A Python dictionary with string keys: an association list in insertion
order with unique keys (all operations below preserve key uniqueness). -/
abbrev Doc := List (String × PyVal)

/-- Dictionary lookup, `d.get(k)`: the value at the first (and, keys being
unique, only) occurrence of the key. -/
def alGet {α : Type} (d : List (String × α)) (k : String) : Option α :=
  match d with
  | [] => none
  | kv :: rest => if kv.1 == k then some kv.2 else alGet rest k

/-- Dictionary membership, `k in d`. -/
def alContains {α : Type} (d : List (String × α)) (k : String) : Bool :=
  (alGet d k).isSome

/-- Dictionary lookup with default, `d.get(k, dflt)`. -/
def alGetD {α : Type} (d : List (String × α)) (k : String) (dflt : α) : α :=
  (alGet d k).getD dflt

/-- Dictionary assignment `d[k] = v`: replaces the value in place when the
key exists, appends otherwise (Python dictionaries keep insertion order). -/
def alSet {α : Type} (d : List (String × α)) (k : String) (v : α) : List (String × α) :=
  match d with
  | [] => [(k, v)]
  | kv :: rest => if kv.1 == k then (k, v) :: rest else kv :: alSet rest k v

/-- Dictionary merge `base.update(upd)`: successive assignments of the
entries of `upd` into `base`. -/
def alUpdate {α : Type} (base upd : List (String × α)) : List (String × α) :=
  upd.foldl (fun b kv => alSet b kv.1 kv.2) base

/-- The exceptions the embedded code can raise. -/
inductive Err where
  | keyError
  | typeError
  | valueError
  | parseError
  | fileNotFound (path : String)
  | missingCAFile (path : String)
deriving DecidableEq, Repr

/-- Python `os.path.join` for the POSIX flavour used here: an absolute
second component replaces the first. -/
def osPathJoin (a b : String) : String :=
  if strStartsWith b "/" then b
  else if a = "" || strEndsWith a "/" then a ++ b
  else a ++ "/" ++ b

/-- Python `int(v)`: integers pass through, strings are parsed after
stripping whitespace (optional sign, decimal digits), `None` is a type
error. -/
def pyInt : PyVal → Except Err Int
  | .pint n => .ok n
  | .pstr s =>
    let chars := (pyStrip s).data
    let digitsToNat : List Char → Option Nat := fun ds =>
      match ds with
      | [] => none
      | _ => ds.foldl (fun acc? c =>
          acc?.bind (fun acc =>
            if c.isDigit then some (acc * 10 + (c.toNat - 48)) else none)) (some 0)
    let parsed : Option Int :=
      match chars with
      | '-' :: rest => (digitsToNat rest).map (fun n => -(n : Int))
      | '+' :: rest => (digitsToNat rest).map (fun n => (n : Int))
      | _ => (digitsToNat chars).map (fun n => (n : Int))
    match parsed with
    | some n => .ok n
    | none => .error .valueError
  | .pnone => .error .typeError

/-- A value that the code is about to use as a string (a path, a format
list); any other value raises a type error at that point. -/
def expectStr : PyVal → Except Err String
  | .pstr s => .ok s
  | _ => .error .typeError

/- ===== Constants of configuration.py ===== -/

def LEGACY_WORK_DIR : String := "/etc/acme"
def LEGACY_CONF_FILE : String := osPathJoin LEGACY_WORK_DIR "acme.conf"
def LEGACY_CONF_DIR : String := osPathJoin LEGACY_WORK_DIR "domains.d"
def DEFAULT_CONF_FILE : String := "/etc/acertmgr/acertmgr.conf"
def DEFAULT_CONF_DIR : String := "/etc/acertmgr"
def DEFAULT_KEY_LENGTH : Int := 4096
def DEFAULT_TTL : Int := 30
def DEFAULT_API : String := "v2"
def DEFAULT_AUTHORITY : String := "https://acme-v02.api.letsencrypt.org"
def LEGACY_API : String := "v1"
def LEGACY_AUTHORITY : String := "https://acme-v01.api.letsencrypt.org"
def LEGACY_AUTHORITY_TOS_AGREEMENT : String := "true"

/- ===== configuration.py: the resolution functions ===== -/

/-- The global configuration document.  `fields` holds its scalar entries;
`defaults` holds the nested `defaults` mapping, empty when absent
(`globalconfig.get("defaults", ...)` with an empty-dictionary default). -/
structure GlobalConfig where
  fields : Doc
  defaults : Doc
deriving DecidableEq, Repr, Inhabited

/-- The two entries of the runtime dictionary that `parse_config_entry`
reads; `load` always sets both, `work_dir` always to a string. -/
structure RuntimeConfig where
  work_dir : String
  authority_tos_agreement : PyVal
deriving DecidableEq, Repr, Inhabited

/-- `update_config_value` (configuration.py lines 57-62): the first override
document of `localconfig` that defines `name` supplies the value; otherwise
`globalconfig.get(name, default)`.  The source stores into `config[name]`;
the embedding returns the stored value. -/
def update_config_value (name : String) (localconfig : List Doc)
    (globalconfig : Doc) (default : PyVal) : PyVal :=
  match localconfig.filter (fun x => alContains x name) with
  | v :: _ => alGetD v name default
  | [] => alGetD globalconfig name default

/-- `complete_action_config` (lines 43-53).  The source reads
`config["defaults"]`, `config["ca_file"]`, `config["cert_file"]` and
`config["key_file"]` from the resolved domain-group configuration; they are
passed here explicitly.  The source mutates and returns `domainconfig`; the
embedding returns the updated document. -/
def complete_action_config (domainconfig : Doc) (ca_file cert_file key_file : PyVal)
    (defaults : Doc) : Doc :=
  let d := alSet domainconfig "ca_file" ca_file
  let d := alSet d "cert_file" cert_file
  let d := alSet d "key_file" key_file
  let d := defaults.foldl (fun d kv =>
    if alContains d kv.1 then d else alSet d kv.1 kv.2) d
  if alContains d "action" then d else alSet d "action" PyVal.pnone

/-- Whether the `idna` module is importable, and the translation it performs
(`idna.encode(s).decode("utf-8")`); the encoder itself is an external
library and is a parameter of the model. -/
structure IdnaEnv where
  available : Bool
  encode : String → String

/-- `idna_convert` (lines 66-81): when the idna module is present and some
character of the joined domain list is non-ASCII, build a dictionary mapping
the ASCII-compatible form of each non-ASCII domain to its original form
(wildcard prefixes are kept and only the suffix is encoded); ASCII domains
produce no entry.  Otherwise return the empty dictionary (with a printed
warning when the module is missing). -/
def idna_convert (env : IdnaEnv) (domainlist : List String) : List (String × String) :=
  if env.available && hasNonAscii (pyConcat domainlist) then
    domainlist.foldl (fun acc domain =>
      if hasNonAscii domain then
        let idna_domain :=
          if strStartsWith domain "*." then "*." ++ env.encode (strDrop domain 2)
          else env.encode domain
        alSet acc idna_domain domain
      else acc) []
  else []

/-- One raw domain-group entry: an item of the parsed domain configuration
file, `(domains-key, list of override documents)`. -/
structure Entry where
  domains : String
  localconfig : List Doc
deriving DecidableEq, Repr, Inhabited

/-- The fully resolved domain-group configuration built by
`parse_config_entry`. -/
structure Config where
  domains : String
  domainlist : List String
  id : String
  domaintranslation : List (String × String)
  defaults : Doc
  api : PyVal
  authority : PyVal
  authority_tos_agreement : PyVal
  authority_contact_email : PyVal
  account_key : PyVal
  cert_dir : PyVal
  ttl_days : Int
  cert_revoke_superseded : PyVal
  csr_static : PyVal
  csr_file : PyVal
  cert_file : PyVal
  key_file : PyVal
  key_length : Int
  static_ca : Bool
  ca_file : PyVal
  actions : List Doc
  handlers : List (String × Doc)
deriving DecidableEq, Repr, Inhabited

/-- `parse_config_entry` (lines 85-192), step for step.  Failures of the two
`int(...)` conversions and of the string uses of `cert_dir` surface as
`Except.error`; everything else is total.  Note three source subtleties kept
by the embedding: the identifier is hashed from the verbatim `domains` key
before any translation; the CA search iterates over `entry` itself, the
`(domains, localconfig)` pair, so it is a substring test on the domains
string (the override list, being a list of mappings, never equals the string
`ca_file`) and yields that whole string; and `complete_action_config`
mutates the override documents in place, so the handler section sees action
documents in their completed state. -/
def parse_config_entry (entry : Entry) (globalconfig : GlobalConfig)
    (runtimeconfig : RuntimeConfig) (env : IdnaEnv) : Except Err Config :=
  let domains0 := entry.domains
  let localconfig := entry.localconfig
  let domainlist0 := pySplit ' ' domains0
  let id := md5HexOfString domains0
  let domaintranslation := idna_convert env domainlist0
  let dlds : List String × String :=
    if domaintranslation.length > 0 then
      let dl := domaintranslation.map (fun kv => kv.2)
      (dl, pyJoin ' ' dl)
    else (domainlist0, domains0)
  let domainlist := dlds.1
  let domains := dlds.2
  let defaults := globalconfig.defaults
  let g := globalconfig.fields
  let api := update_config_value "api" localconfig g (.pstr DEFAULT_API)
  let authority := update_config_value "authority" localconfig g (.pstr DEFAULT_AUTHORITY)
  let authority_tos_agreement :=
    update_config_value "authority_tos_agreement" localconfig g
      runtimeconfig.authority_tos_agreement
  let authority_contact_email :=
    update_config_value "authority_contact_email" localconfig g .pnone
  let account_key := update_config_value "account_key" localconfig g
    (.pstr (osPathJoin runtimeconfig.work_dir "account.key"))
  let cert_dir := update_config_value "cert_dir" localconfig g
    (.pstr runtimeconfig.work_dir)
  match pyInt (update_config_value "ttl_days" localconfig g (.pint DEFAULT_TTL)) with
  | .error er => .error er
  | .ok ttl_days =>
    let cert_revoke_superseded :=
      update_config_value "cert_revoke_superseded" localconfig g (.pstr "false")
    let csr_static := update_config_value "csr_static" localconfig g (.pstr "false")
    -- the derived path defaults are built eagerly from the resolved cert_dir
    match expectStr cert_dir with
    | .error er => .error er
    | .ok certDirStr =>
      let csr_file := update_config_value "csr_file" localconfig g
        (.pstr (osPathJoin certDirStr (id ++ ".csr")))
      let cert_file := update_config_value "cert_file" localconfig g
        (alGetD g "server_cert" (.pstr (osPathJoin certDirStr (id ++ ".crt"))))
      let key_file := update_config_value "key_file" localconfig g
        (alGetD g "server_key" (.pstr (osPathJoin certDirStr (id ++ ".key"))))
      match pyInt (update_config_value "key_length" localconfig g (.pint DEFAULT_KEY_LENGTH)) with
      | .error er => .error er
      | .ok key_length =>
        -- SSL CA location: `[x for x in entry if "ca_file" in x]` over the pair
        let ca_files : List PyVal :=
          if strContainsSub domains0 "ca_file" then [.pstr domains0] else []
        let sca : Bool × PyVal :=
          match ca_files with
          | v :: _ => (true, v)
          | [] =>
            match alGet g "server_ca" with
            | some v => (true, v)
            | none => (false, .pstr (osPathJoin certDirStr (id ++ ".ca")))
        let static_ca := sca.1
        let ca_file := sca.2
        -- domain action configuration: completing an action document
        -- mutates it in place inside localconfig
        let localconfig1 := localconfig.map (fun x =>
          if alContains x "path" then
            complete_action_config x ca_file cert_file key_file defaults
          else x)
        let actions := localconfig1.filter (fun x => alContains x "path")
        -- domain challenge handler configuration, over the mutated documents
        let handlerconfigs := localconfig1.filter (fun x => alContains x "mode")
        let handlers := domainlist.foldl (fun hs domain =>
          let cfg := g
          let cfg := match handlerconfigs.filter (fun x => !alContains x "domain") with
                     | gg :: _ => alUpdate cfg gg
                     | [] => cfg
          let origName := alGetD domaintranslation domain domain
          let cfg := match handlerconfigs.filter (fun x =>
                       alContains x "domain" && alGet x "domain" == some (.pstr origName)) with
                     | ss :: _ => alUpdate cfg ss
                     | [] => cfg
          alSet hs domain cfg) []
        .ok { domains, domainlist, id, domaintranslation, defaults, api, authority,
              authority_tos_agreement, authority_contact_email, account_key, cert_dir,
              ttl_days, cert_revoke_superseded, csr_static, csr_file, cert_file,
              key_file, key_length, static_ca, ca_file, actions, handlers }

/- ===== Filesystem model ===== -/

/-- A file: its textual content and a modification time.  Modification
times of files written during a run play no further role in any property
verified here, so writes stamp 0. -/
structure FileData where
  content : String
  mtime : Int
deriving DecidableEq, Repr, Inhabited

/-- The filesystem: a finite map from paths to files. -/
abbrev FS := List (String × FileData)

def fsGet (fs : FS) (p : String) : Option FileData := alGet fs p

/-- `os.path.isfile`. -/
def fsIsFile (fs : FS) (p : String) : Bool := (fsGet fs p).isSome

def fsWrite (fs : FS) (p : String) (content : String) : FS :=
  alSet fs p ⟨content, 0⟩

/- ===== The tools collaborator (repository code not present under src/) ===== -/

/-- Modelled from the spec: `tools.read_pem_file` of the CryptoStore
collaborator is repository code absent from the provided sources.  Per the
specification a certificate file either parses, yielding a certificate
whose only relevant attribute is its remaining lifetime in days, or fails
to parse.  File content of the form `CERT` followed by an integer stands
for a certificate with that remaining lifetime; any other content fails to
parse. -/
def read_pem_file (content : String) : Option Int :=
  if strStartsWith content "CERT" then
    match pyInt (.pstr (strDrop content 4)) with
    | .ok n => some n
    | .error _ => none
  else none

/-- Modelled from the spec: `tools.is_cert_valid` — a certificate is
current exactly when it parses successfully and its remaining lifetime
exceeds `ttl_days`; any parse failure routes to renewal. -/
def is_cert_valid (cert : Option Int) (ttl_days : Int) : Bool :=
  match cert with
  | none => false
  | some remaining => ttl_days < remaining

/-- Modelled from the spec: `tools.target_is_current` — the deployment
target is current unless it is missing or older than the certificate
file. -/
def target_is_current (fs : FS) (target cert : String) : Bool :=
  match fsGet fs target, fsGet fs cert with
  | some t, some c => c.mtime ≤ t.mtime
  | some _, none => true
  | none, _ => false

/- ===== __init__.py: cert_put and the main loop ===== -/

/-- Python dictionary subscript `d[k]`: `KeyError` when absent. -/
def pyGetE (d : Doc) (k : String) : Except Err PyVal :=
  match alGet d k with
  | some v => .ok v
  | none => .error .keyError

/-- The format loop of `cert_put` (lines 110-127): accumulate the content
written so far; `crt` and `key` open and read their source file, `ca` first
checks existence and raises the missing-CA error, and any other token falls
into the `else: pass` of the last `if` and writes nothing.  On an error the
content accumulated so far is returned alongside it, because the `with`
block flushes it into the target when unwinding. -/
def cert_put_write (fs : FS) (crtV keyV caV : PyVal) (acc : String) :
    List String → String × Option Err
  | [] => (acc, none)
  | fmt :: rest =>
    if fmt = "crt" then
      match expectStr crtV with
      | .error e => (acc, some e)
      | .ok p =>
        match fsGet fs p with
        | none => (acc, some (.fileNotFound p))
        | some fd => cert_put_write fs crtV keyV caV (acc ++ fd.content) rest
    else if fmt = "key" then
      match expectStr keyV with
      | .error e => (acc, some e)
      | .ok p =>
        match fsGet fs p with
        | none => (acc, some (.fileNotFound p))
        | some fd => cert_put_write fs crtV keyV caV (acc ++ fd.content) rest
    else if fmt = "ca" then
      match expectStr caV with
      | .error e => (acc, some e)
      | .ok p =>
        match fsGet fs p with
        | none => (acc, some (.missingCAFile p))
        | some fd => cert_put_write fs crtV keyV caV (acc ++ fd.content) rest
    else cert_put_write fs crtV keyV caV acc rest

/-- `cert_put` (lines 95-141).  The settings lookups happen in source
order before the target is opened; `io.open(crt_path, "w+")` truncates the
target immediately, and the accumulated content reaches it when the block
is left, normally or by exception.  The ownership and permission calls
after the writes touch the OS principal database and print warnings on
failure; they are outside the filesystem-content model.  Returns the
settings' action value on success. -/
def cert_put (fs : FS) (settings : Doc) : FS × Except Err PyVal :=
  let pre : Except Err (PyVal × String × String × PyVal × PyVal × PyVal) := do
    let ca_file ← pyGetE settings "ca_file"
    let _crt_user ← pyGetE settings "user"
    let _crt_group ← pyGetE settings "group"
    let _crt_perm ← pyGetE settings "perm"
    let crt_path ← pyGetE settings "path"
    let crt_format ← pyGetE settings "format"
    let fmtStr ← expectStr crt_format
    let crt_action ← pyGetE settings "action"
    let key_file ← pyGetE settings "key_file"
    let crt_final ← pyGetE settings "cert_file"
    let pathStr ← expectStr crt_path
    .ok (ca_file, fmtStr, pathStr, crt_action, key_file, crt_final)
  match pre with
  | .error e => (fs, .error e)
  | .ok (caV, fmtStr, pathStr, actV, keyV, crtV) =>
    let tokens := (pySplit ',' fmtStr).map pyStrip
    let fs1 := fsWrite fs pathStr ""
    let r := cert_put_write fs1 crtV keyV caV "" tokens
    match r.2 with
    | some e => (fsWrite fs1 pathStr r.1, .error e)
    | none => (fsWrite fs1 pathStr r.1, .ok actV)

/-- Running state of one run: the filesystem, the domain strings passed to
`cert_get`, and the `actions` set in insertion order (only membership and
distinctness of a Python set are relied upon). -/
structure RunState where
  fs : FS
  certGets : List String
  actions : List PyVal
deriving DecidableEq, Repr, Inhabited

/-- `actions.add(v)`. -/
def setAdd (s : List PyVal) (v : PyVal) : List PyVal :=
  if s.contains v then s else s ++ [v]

/-- Modelled from the spec: `cert_get` (lines 51-89) drives the account
registration, key and CSR handling and the authority exchange, all
conversations with external collaborators.  The claims depend only on
whether it is invoked, so the invocation is recorded and the filesystem is
left unchanged. -/
def cert_get_model (st : RunState) (config : Config) : RunState :=
  { st with certGets := st.certGets ++ [config.domains] }

/-- The deployment loop of the main body (lines 160-163): for each action
document, rebuild the target when it is not current; `cert_put` errors
propagate (there is no handler), ending the run with the filesystem
holding the partial write. -/
def process_targets (st : RunState) (cert_file : String) :
    List Doc → RunState × Option Err
  | [] => (st, none)
  | cfg :: rest =>
    match pyGetE cfg "path" with
    | .error e => (st, some e)
    | .ok pathV =>
      match expectStr pathV with
      | .error e => (st, some e)
      | .ok pathStr =>
        if !(target_is_current st.fs pathStr cert_file) then
          let r := cert_put st.fs cfg
          match r.2 with
          | .error e => ({ st with fs := r.1 }, some e)
          | .ok actV =>
            process_targets { st with fs := r.1, actions := setAdd st.actions actV }
              cert_file rest
        else process_targets st cert_file rest

/-- The renewal decision of the main body (lines 154-157): issuance is
needed when the certificate file is missing or
`not tools.is_cert_valid(cert, ttl_days)` holds for its content. -/
def renewal_needed (fs : FS) (cert_file : String) (ttl_days : Int) : Bool :=
  match fsGet fs cert_file with
  | none => true
  | some fd => !(is_cert_valid (read_pem_file fd.content) ttl_days)

/-- One iteration of the main loop body (lines 153-163) for a domain-group
configuration: check the certificate, invoke `cert_get` when it is missing
or not valid under the TTL policy, then process the deployment targets. -/
def process_config (st : RunState) (config : Config) : RunState × Option Err :=
  match expectStr config.cert_file with
  | .error e => (st, some e)
  | .ok cert_file =>
    let st1 :=
      if renewal_needed st.fs cert_file config.ttl_days then cert_get_model st config
      else st
    process_targets st1 cert_file config.actions

/-- The action execution phase (lines 166-173): iterate the actions set,
skip `None`, run each string once (a failing command is caught and only
printed), and reject a non-string command with the `TypeError` of
`subprocess`. -/
def run_actions : List PyVal → List String × Option Err
  | [] => ([], none)
  | v :: rest =>
    match v with
    | .pnone => run_actions rest
    | .pstr a => let r := run_actions rest; (a :: r.1, r.2)
    | .pint _ => ([], some .typeError)

/-- Outcome of a whole run: final filesystem, recorded `cert_get`
invocations, executed actions, and the uncaught exception if any. -/
structure RunResult where
  fs : FS
  certGets : List String
  executed : List String
  err : Option Err
deriving DecidableEq, Repr, Inhabited

/-- The body of `main` (lines 149-173) applied to the domain-group
configuration list — the iteration `load` evidently intends to feed it
(`main_run` below models the iteration the source actually performs).  An
exception anywhere aborts the whole run: later configurations and the
action phase never run. -/
def process_run (configs : List Config) (fs : FS) : RunResult :=
  let step : RunState × Option Err → Config → RunState × Option Err := fun acc config =>
    match acc.2 with
    | some e => (acc.1, some e)
    | none => process_config acc.1 config
  let r := configs.foldl step (⟨fs, [], []⟩, none)
  match r.2 with
  | some e => ⟨r.1.fs, r.1.certGets, [], some e⟩
  | none =>
    let ex := run_actions r.1.actions
    ⟨r.1.fs, r.1.certGets, ex.1, ex.2⟩

/-- `main` (lines 144-173) as the source is written: `configs` is the PAIR
`(runtimeconfig, domainconfigs)` returned by `configuration.load`, and
`for config in configs` iterates over that pair.  The first iterand is the
runtime dictionary, so `config["cert_file"]` is a lookup in it and raises
`KeyError` when the key is absent — and `load` never sets it (theorem
`load_runtime_no_cert_file` below).  Were it ever present, the same first
iteration would still raise `KeyError` at its next runtime-dictionary
subscript (`ttl_days`, `domains` inside `cert_get`, or `actions` are never
runtime keys either), before any domain group is processed; the branch is
summarised accordingly. -/
def main_run (runtimeconfig : Doc) (_domainconfigs : List Config) (fs : FS) : RunResult :=
  match alGet runtimeconfig "cert_file" with
  | none => ⟨fs, [], [], some .keyError⟩
  | some _ => ⟨fs, [], [], some .keyError⟩

/- ===== configuration.py: load ===== -/

/-- The command line arguments `load` consumes (argparse leaves an option
at `None` when not given). -/
structure Args where
  config_file : Option String
  config_dir : Option String
  work_dir : Option String
  authority_tos_agreement : Option String
  force_renew : Option String
  revoke : Option String
  revoke_reason : Option Int
deriving Repr, Inhabited, DecidableEq

/-- The filesystem predicates `load` consults for its legacy-path
detection. -/
structure FSInfo where
  isfile : String → Bool
  isdir : String → Bool

/-- Python truthiness of an optional string (an empty string is falsy). -/
def optTruthy : Option String → Bool
  | some s => !(s == "")
  | none => false

/-- Global configuration file determination (lines 216-222). -/
def global_config_file (args : Args) (fsi : FSInfo) : String :=
  if optTruthy args.config_file then args.config_file.getD ""
  else if fsi.isfile LEGACY_CONF_FILE then LEGACY_CONF_FILE
  else DEFAULT_CONF_FILE

/-- Domain configuration directory determination (lines 225-231). -/
def domain_config_dir (args : Args) (fsi : FSInfo) : String :=
  if optTruthy args.config_dir then args.config_dir.getD ""
  else if fsi.isdir LEGACY_CONF_DIR then LEGACY_CONF_DIR
  else DEFAULT_CONF_DIR

/-- The runtime dictionary `load` builds (lines 233-267).  The `mkdir` of a
missing work directory is a filesystem effect with no bearing on the
dictionary. -/
def load_runtime (args : Args) (fsi : FSInfo) (env : IdnaEnv) : Doc :=
  let dcd := domain_config_dir args fsi
  let gcf := global_config_file args fsi
  let rc : Doc := []
  let rc := alSet rc "work_dir" (.pstr (
    if optTruthy args.work_dir then args.work_dir.getD ""
    else if fsi.isdir LEGACY_WORK_DIR && dcd == LEGACY_CONF_DIR then LEGACY_WORK_DIR
    else dcd))
  let rc := alSet rc "authority_tos_agreement" (
    if optTruthy args.authority_tos_agreement then .pstr (args.authority_tos_agreement.getD "")
    else if gcf == LEGACY_CONF_FILE then .pstr LEGACY_AUTHORITY_TOS_AGREEMENT
    else .pnone)
  let rc :=
    if optTruthy args.force_renew then
      let fr := args.force_renew.getD ""
      let dt := idna_convert env (pySplit ' ' fr)
      if dt.length > 0 then alSet rc "force_renew" (.pstr (pyJoin ' ' (dt.map (fun kv => kv.2))))
      else alSet rc "force_renew" (.pstr fr)
    else rc
  let rc :=
    if optTruthy args.revoke then
      let rc := alSet rc "mode" (.pstr "revoke")
      let rc := alSet rc "revoke" (.pstr (args.revoke.getD ""))
      alSet rc "revoke_reason"
        (match args.revoke_reason with | some n => .pint n | none => .pnone)
    else rc
  rc

/-- One file of the domain configuration directory: its joined path and the
outcomes of the two parse attempts — `json` is what `json.load` yields when
it parses (the entry list of `.items()`), `yaml` likewise for
`yaml.safe_load`; `none` models a raised parse failure. -/
structure DomainFile where
  name : String
  json : Option (List Entry)
  yaml : Option (List Entry)
deriving Repr, Inhabited, DecidableEq

/-- Append the resolved configurations of a file's entries until one of
them raises (the appends happen inside the enclosing `try`, so the
configurations appended before the raise are kept). -/
def appendEntries (g : GlobalConfig) (rc : RuntimeConfig) (env : IdnaEnv)
    (acc : List Config) : List Entry → List Config × Option Err
  | [] => (acc, none)
  | e :: rest =>
    match parse_config_entry e g rc env with
    | .ok c => appendEntries g rc env (acc ++ [c]) rest
    | .error err => (acc, some err)

/-- Load one domain configuration file (lines 293-301): try JSON; a
`ValueError` — from `json.load` or from an entry resolved while iterating —
falls back to YAML with the already appended configurations kept; a YAML
parse failure raises an error that is not a `ValueError` and propagates;
other entry-resolution errors propagate from either branch. -/
def load_domain_file (g : GlobalConfig) (rc : RuntimeConfig) (env : IdnaEnv)
    (acc : List Config) (f : DomainFile) : List Config × Option Err :=
  let yamlSide (acc1 : List Config) : List Config × Option Err :=
    match f.yaml with
    | some entries => appendEntries g rc env acc1 entries
    | none => (acc1, some .parseError)
  match f.json with
  | some entries =>
    match appendEntries g rc env acc entries with
    | (acc1, none) => (acc1, none)
    | (acc1, some .valueError) => yamlSide acc1
    | (acc1, some e) => (acc1, some e)
  | none => yamlSide acc

/-- One step of the directory loop of `load`: an exception raised earlier
short-circuits everything after it; otherwise a file is processed when it
carries the configured extension and is not the global configuration
file. -/
def load_step (global_file : String) (g : GlobalConfig) (rc : RuntimeConfig) (env : IdnaEnv)
    (acc : List Config × Option Err) (f : DomainFile) : List Config × Option Err :=
  match acc.2 with
  | some e => (acc.1, some e)
  | none =>
    if strEndsWith f.name ".conf" && !(f.name == global_file) then
      load_domain_file g rc env acc.1 f
    else (acc.1, none)

/-- The directory loop of `load` (lines 285-301): process every file with
the configured extension other than the global configuration file, in
enumeration order (`os.listdir` order is the `files` argument); the first
uncaught exception aborts the whole loop.  Paths are the joined absolute
paths, so the `os.path.abspath` comparison is name equality here. -/
def load_domain_configs (files : List DomainFile) (global_file : String)
    (g : GlobalConfig) (rc : RuntimeConfig) (env : IdnaEnv) : List Config × Option Err :=
  files.foldl (load_step global_file g rc env) ([], none)

/-- What `load` delivers to its caller from the domain directory: the
configuration list when every file processed, or the propagated exception —
in which case nothing is returned at all, the already parsed configurations
included. -/
def load_result (files : List DomainFile) (global_file : String)
    (g : GlobalConfig) (rc : RuntimeConfig) (env : IdnaEnv) : Except Err (List Config) :=
  match load_domain_configs files global_file g rc env with
  | (cs, none) => .ok cs
  | (_, some e) => .error e

def exceptIsOk {ε α : Type} : Except ε α → Bool
  | .ok _ => true
  | .error _ => false

/- ===== Shared concrete scenario data ===== -/

/-- An empty global configuration document. -/
def emptyGlobal : GlobalConfig := ⟨[], []⟩

/-- A runtime configuration with work directory `/wd` and no ToS value. -/
def rcBase : RuntimeConfig := ⟨"/wd", .pnone⟩

/-- The environment without the idna module. -/
def idnaOff : IdnaEnv := ⟨false, fun s => s⟩

/-- The environment with the idna module; the encoder agrees with
`idna.encode` on the one name the scenarios use. -/
def idnaReal : IdnaEnv :=
  ⟨true, fun s => if s = "exämple.com" then "xn--exmple-cua.com" else s⟩

/-- A run started with no command line options. -/
def argsDefault : Args := ⟨none, none, none, none, none, none, none⟩

/-- A host without the legacy paths. -/
def fsiDefault : FSInfo := ⟨fun _ => false, fun _ => false⟩

/- ===== Supporting lemmas ===== -/

theorem beq_comm_false {k k' : String} (h : (k' == k) = false) : (k == k') = false := by
  cases hbe : (k == k') with
  | true =>
    have hk : k = k' := eq_of_beq hbe
    rw [hk, beq_self_eq_true] at h
    exact Bool.noConfusion h
  | false => rfl

theorem alGet_alSet_ne {α : Type} (d : List (String × α)) (k k' : String) (v : α)
    (h : (k' == k) = false) : alGet (alSet d k v) k' = alGet d k' := by
  induction d with
  | nil => simp [alSet, alGet, beq_comm_false h]
  | cons hd tl ih =>
    cases hk : (hd.1 == k) with
    | true =>
      have hdk : hd.1 = k := eq_of_beq hk
      subst hdk
      simp [alSet, alGet, beq_comm_false h, hk]
    | false =>
      simp only [alSet, hk, Bool.false_eq_true, if_neg, not_false_iff, alGet]
      cases hbe : (hd.1 == k') <;> simp [ih]

theorem alGet_alSet_same {α : Type} (d : List (String × α)) (k : String) (v : α) :
    alGet (alSet d k v) k = some v := by
  induction d with
  | nil => simp [alSet, alGet]
  | cons hd tl ih =>
    cases hk : (hd.1 == k) with
    | true => simp [alSet, hk, alGet]
    | false => simp [alSet, hk, alGet, ih]

/-- `load` never places a `cert_file` entry into the runtime dictionary:
the first iteration of the main loop is therefore a guaranteed
`KeyError`. -/
theorem load_runtime_no_cert_file (args : Args) (fsi : FSInfo) (env : IdnaEnv) :
    alGet (load_runtime args fsi env) "cert_file" = none := by
  simp only [load_runtime]
  repeat' (first
    | rw [alGet_alSet_ne _ _ _ _ (by decide)]
    | split)
  all_goals rfl

/- ===== Claim theorems ===== -/

/-- Claim C3 (code bug): an override document defining `ca_file` is the
first element of the override list — the claim's premise holds — yet the
resolved configuration has `static_ca` false and the derived
per-group CA path, because the source filters the `(domains, localconfig)`
pair instead of the override list.  Third conjunct: when the domains key
happens to contain `ca_file` as a substring, the code instead sets
`static_ca` and stores the whole domains string as the CA file. -/
theorem C3_ca_override_ignored :
    ((([("ca_file", PyVal.pstr "/etc/myca.pem")] : Doc) :: []).find?
        (fun x => alContains x "ca_file") =
      some [("ca_file", PyVal.pstr "/etc/myca.pem")]) ∧
    (parse_config_entry ⟨"example.com", [[("ca_file", PyVal.pstr "/etc/myca.pem")]]⟩
        emptyGlobal rcBase idnaOff).map (fun c => (c.static_ca, c.ca_file)) =
      .ok (false, .pstr ("/wd/" ++ md5HexOfString "example.com" ++ ".ca")) ∧
    (parse_config_entry ⟨"ca_file.example.com", []⟩ emptyGlobal rcBase idnaOff).map
        (fun c => (c.static_ca, c.ca_file)) =
      .ok (true, .pstr "ca_file.example.com") := by
  refine ⟨rfl, rfl, rfl⟩

/-- Claim C4 (code bug): for a domain group with one non-ASCII and one
ASCII domain, and the idna module available, the resolved working domain
list is `["exämple.com"]` — the ASCII domain is dropped and the kept entry
is the original unicode form, not an ASCII-compatible one — whatever the
idna encoder returns (first conjunct).  The second conjunct evaluates the
scenario with the real encoder value: the translation mapping does pair the
ASCII form with the original, but the working list and the joined domains
string keep the original. -/
theorem C4_working_list_not_ascii :
    (∀ enc : String → String,
      (parse_config_entry ⟨"exämple.com plain.com", []⟩ emptyGlobal rcBase
          ⟨true, enc⟩).map (fun c => c.domainlist) = .ok ["exämple.com"]) ∧
    (parse_config_entry ⟨"exämple.com plain.com", []⟩ emptyGlobal rcBase idnaReal).map
        (fun c => (c.domainlist, c.domains, c.domaintranslation)) =
      .ok (["exämple.com"], "exämple.com", [("xn--exmple-cua.com", "exämple.com")]) :=
  ⟨fun _ => rfl, rfl⟩

/-- Claim C6 (confirmed): `update_config_value` resolves a field to the
value of the first override document that defines it — later documents
defining the same field are ignored, because only the head of the filtered
list is consulted — and otherwise to the global configuration value when
present, and otherwise to the hardcoded default. -/
theorem C6_first_override_wins (name : String) (localconfig : List Doc)
    (globalconfig : Doc) (default : PyVal) :
    update_config_value name localconfig globalconfig default =
      match localconfig.find? (fun x => alContains x name) with
      | some v => alGetD v name default
      | none =>
        match alGet globalconfig name with
        | some gv => gv
        | none => default := by
  induction localconfig with
  | nil =>
    unfold update_config_value alGetD
    cases alGet globalconfig name <;> rfl
  | cons hd tl ih =>
    unfold update_config_value at ih ⊢
    cases h : alContains hd name with
    | true => simp [List.filter_cons, List.find?, h]
    | false => simpa [List.filter_cons, List.find?, h] using ih

/-- Lexicographic comparison of code point lists — the order Python's
`sorted` uses on strings. -/
def strLeChars : List Char → List Char → Bool
  | [], _ => true
  | _ :: _, [] => false
  | c :: cs, d :: ds =>
    if c.toNat < d.toNat then true
    else if d.toNat < c.toNat then false
    else strLeChars cs ds

def strLe (a b : String) : Bool := strLeChars a.data b.data

def insertSorted (x : String) : List String → List String
  | [] => [x]
  | y :: ys => if strLe x y then x :: y :: ys else y :: insertSorted x ys

def sortStrings : List String → List String
  | [] => []
  | x :: xs => insertSorted x (sortStrings xs)

/-- The canonical form claim C1 speaks of: the domain names of the entry's
domains key, sorted and space-joined. -/
def canonicalDomains (domains : String) : String :=
  pyJoin ' ' (sortStrings (pySplit ' ' domains))

/-- Claim C1 is false on the code: the two entries `a b` and `b a` carry
the same domain set — their canonical sorted space-joined forms coincide —
yet they resolve to different identifiers, because `parse_config_entry`
hashes the verbatim domains key without sorting. -/
theorem C1_counterexample :
    canonicalDomains "a b" = canonicalDomains "b a" ∧
    (parse_config_entry ⟨"a b", []⟩ emptyGlobal rcBase idnaOff).map Config.id =
      .ok "0cc9cd4dd26c5137b675a0d819cb9ab0" ∧
    (parse_config_entry ⟨"b a", []⟩ emptyGlobal rcBase idnaOff).map Config.id =
      .ok "22936088d666c8ef5cea01ba1aeb27c3" ∧
    ("0cc9cd4dd26c5137b675a0d819cb9ab0" : String) ≠ "22936088d666c8ef5cea01ba1aeb27c3" := by
  refine ⟨by decide, rfl, rfl, by decide⟩

/-- Claim C1 amended: the resolved `id` is a pure function of the verbatim
`domains` key of the entry — the MD5 hex digest of its UTF-8 encoding,
computed before any translation and independent of the override list, the
global and runtime configuration and the idna environment; entries whose
domains strings coincide therefore always resolve to the same stable `id`,
but equal domain sets written in a different order may not. -/
theorem C1_amended_id_is_md5_of_verbatim_domains (e : Entry) (g : GlobalConfig)
    (rc : RuntimeConfig) (env : IdnaEnv) (c : Config)
    (h : parse_config_entry e g rc env = .ok c) :
    c.id = md5HexOfString e.domains := by
  simp only [parse_config_entry] at h
  split at h
  · exact Except.noConfusion h
  · split at h
    · exact Except.noConfusion h
    · split at h
      · exact Except.noConfusion h
      · injection h with h
        subst h
        rfl

/-- The configuration resolved from the entry `a b`, for the C1 witness. -/
def configC1 : Config :=
  match parse_config_entry ⟨"a b", []⟩ emptyGlobal rcBase idnaOff with
  | .ok c => c
  | .error _ => default

/-- Witness for the amended C1 at a concrete entry. -/
theorem C1_amended_witness : configC1.id = md5HexOfString "a b" :=
  C1_amended_id_is_md5_of_verbatim_domains ⟨"a b", []⟩ emptyGlobal rcBase idnaOff
    configC1 rfl

/-- An entry both serializers would deliver. -/
def entryGood : Entry := ⟨"good.example", []⟩

/-- A domain file both serializers parse, holding one entry. -/
def fileGood : DomainFile := ⟨"/etc/acertmgr/good.conf", some [entryGood], some [entryGood]⟩

/-- A domain file neither serializer parses. -/
def fileBad : DomainFile := ⟨"/etc/acertmgr/bad.conf", none, none⟩

/-- Claim C2 is false on the code: with one unparsable domain file in the
directory the whole load raises, whichever position the file occupies; the
other file's entries are not delivered, although that file alone loads
fine. -/
theorem C2_counterexample :
    load_result [fileBad, fileGood] DEFAULT_CONF_FILE emptyGlobal rcBase idnaOff =
      .error .parseError ∧
    load_result [fileGood, fileBad] DEFAULT_CONF_FILE emptyGlobal rcBase idnaOff =
      .error .parseError ∧
    (load_result [fileGood] DEFAULT_CONF_FILE emptyGlobal rcBase idnaOff).map
      (fun cs => cs.map Config.domains) = .ok ["good.example"] := by
  refine ⟨rfl, rfl, rfl⟩

theorem load_step_error_persists (files : List DomainFile) (global_file : String)
    (g : GlobalConfig) (rc : RuntimeConfig) (env : IdnaEnv) (acc : List Config) (e : Err) :
    files.foldl (load_step global_file g rc env) (acc, some e) = (acc, some e) := by
  induction files with
  | nil => rfl
  | cons f tl ih =>
    simp only [List.foldl]
    exact ih

theorem load_bad_file_gives_error (global_file : String) (g : GlobalConfig)
    (rc : RuntimeConfig) (env : IdnaEnv) (f : DomainFile)
    (hconf : strEndsWith f.name ".conf" = true)
    (hne : (f.name == global_file) = false)
    (hj : f.json = none) (hy : f.yaml = none) :
    ∀ (files : List DomainFile) (start : List Config × Option Err), f ∈ files →
      ∃ e, (files.foldl (load_step global_file g rc env) start).2 = some e := by
  intro files
  induction files with
  | nil => intro _ hmem; cases hmem
  | cons hd tl ih =>
    intro start hmem
    simp only [List.foldl]
    cases hs2 : start.2 with
    | some e =>
      have hstep : load_step global_file g rc env start hd = (start.1, some e) := by
        unfold load_step
        rw [hs2]
      rw [hstep, load_step_error_persists]
      exact ⟨e, rfl⟩
    | none =>
      rcases List.mem_cons.mp hmem with hf | hf
      · subst hf
        have hstep : load_step global_file g rc env start f = (start.1, some .parseError) := by
          unfold load_step
          rw [hs2, hconf, hne]
          simp only [Bool.not_false, Bool.and_self, if_pos]
          unfold load_domain_file
          rw [hj, hy]
        rw [hstep, load_step_error_persists]
        exact ⟨.parseError, rfl⟩
      · exact ih _ hf

/-- Claim C2 amended: when one domain-group file fails to parse in both
supported serialization formats, the exception propagates out of the
directory loop: the whole load aborts and no domain-group configuration is
delivered at all — the other files' entries, parsed or not, included. -/
theorem C2_amended_parse_failure_aborts_whole_load (files : List DomainFile)
    (global_file : String) (g : GlobalConfig) (rc : RuntimeConfig) (env : IdnaEnv)
    (f : DomainFile) (hmem : f ∈ files) (hconf : strEndsWith f.name ".conf" = true)
    (hne : (f.name == global_file) = false) (hj : f.json = none) (hy : f.yaml = none) :
    exceptIsOk (load_result files global_file g rc env) = false := by
  obtain ⟨e, he⟩ :=
    load_bad_file_gives_error global_file g rc env f hconf hne hj hy files ([], none) hmem
  unfold load_result load_domain_configs
  split
  · rename_i cs heq
    rw [heq] at he
    exact Option.noConfusion he
  · rfl

/-- Witness for the amended C2 at the concrete two-file directory. -/
theorem C2_amended_witness :
    exceptIsOk (load_result [fileBad, fileGood] DEFAULT_CONF_FILE emptyGlobal rcBase idnaOff) =
      false :=
  C2_amended_parse_failure_aborts_whole_load [fileBad, fileGood] DEFAULT_CONF_FILE
    emptyGlobal rcBase idnaOff fileBad (List.Mem.head _) (by decide) (by decide) rfl rfl

/- ===== Run scenarios for the main-loop claims ===== -/

/-- A resolved domain-group configuration literal for the run scenarios;
only the fields the main loop reads vary between scenarios. -/
def mkConfig (domains cert_file : String) (ttl : Int) (actions : List Doc) : Config where
  domains := domains
  domainlist := pySplit ' ' domains
  id := md5HexOfString domains
  domaintranslation := []
  defaults := []
  api := .pstr DEFAULT_API
  authority := .pstr DEFAULT_AUTHORITY
  authority_tos_agreement := .pnone
  authority_contact_email := .pnone
  account_key := .pstr "/wd/account.key"
  cert_dir := .pstr "/wd"
  ttl_days := ttl
  cert_revoke_superseded := .pstr "false"
  csr_static := .pstr "false"
  csr_file := .pstr "/wd/csr.pem"
  cert_file := .pstr cert_file
  key_file := .pstr "/wd/key.pem"
  key_length := DEFAULT_KEY_LENGTH
  static_ca := false
  ca_file := .pstr "/wd/ca.pem"
  actions := actions
  handlers := []

/-- The C5 scenario: one domain group whose certificate file is absent. -/
def configC5 : Config := mkConfig "c5.example" "/wd/c5.crt" 30 []

/-- Claim C5 (code bug).  First conjunct: the renewal decision predicate of
the loop body is exactly the claimed one — the certificate is left alone
iff its file exists, parses, and its remaining lifetime strictly exceeds
`ttl_days`; a missing file, a parse failure or an insufficient lifetime all
route to issuance.  Remaining conjuncts evaluate the failing input: the
certificate file of the group is missing, yet `main` — which iterates the
`(runtimeconfig, domainconfigs)` pair itself — raises `KeyError` without
invoking `cert_get`, while the loop body applied to the domain
configurations, as evidently intended, would invoke it. -/
theorem C5_renewal_decision :
    (∀ (fs : FS) (p : String) (ttl : Int),
        renewal_needed fs p ttl = false ↔
          ∃ fd, fsGet fs p = some fd ∧
            ∃ r, read_pem_file fd.content = some r ∧ ttl < r) ∧
    fsGet ([] : FS) "/wd/c5.crt" = none ∧
    main_run (load_runtime argsDefault fsiDefault idnaOff) [configC5] [] =
      ⟨[], [], [], some .keyError⟩ ∧
    (process_run [configC5] []).certGets = ["c5.example"] := by
  refine ⟨?_, rfl, rfl, rfl⟩
  intro fs p ttl
  unfold renewal_needed
  cases hg : fsGet fs p with
  | none => simp
  | some fd =>
    cases hr : read_pem_file fd.content with
    | none => simp [is_cert_valid, hr]
    | some r => simp [is_cert_valid, hr]

/- Set semantics of the action collection. -/

theorem mem_setAdd (s : List PyVal) (a v : PyVal) :
    v ∈ setAdd s a ↔ v ∈ s ∨ v = a := by
  unfold setAdd
  split
  · rename_i hc
    have ha : a ∈ s := List.mem_of_elem_eq_true hc
    constructor
    · exact Or.inl
    · rintro (h | h)
      · exact h
      · subst h; exact ha
  · simp [List.mem_append]

theorem count_foldl_setAdd (emitted : List PyVal) :
    ∀ (s : List PyVal) (v : PyVal), s.count v = (if v ∈ s then 1 else 0) →
      (emitted.foldl setAdd s).count v = if v ∈ s ∨ v ∈ emitted then 1 else 0 := by
  induction emitted with
  | nil => intro s v hs; simpa using hs
  | cons a tl ih =>
    intro s v hs
    have hstep : (setAdd s a).count v = if v ∈ setAdd s a then 1 else 0 := by
      unfold setAdd
      split
      · exact hs
      · rename_i hc
        have ha : a ∉ s := fun hm => hc (List.elem_eq_true_of_mem hm)
        rw [List.count_append]
        simp only [List.mem_append]
        by_cases hva : v = a
        · subst hva
          simp [hs, ha, List.count_cons]
        · simp [hs, hva, List.count_cons]
    have := ih (setAdd s a) v hstep
    simp only [List.foldl]
    rw [this]
    congr 1
    simp only [eq_iff_iff]
    rw [mem_setAdd, List.mem_cons]
    tauto

/-- The C7 scenario target documents: two targets, identical action. -/
def actionDocC7 (tgt : String) : Doc :=
  [("path", .pstr tgt), ("user", .pstr "root"), ("group", .pstr "root"),
   ("perm", .pstr "600"), ("format", .pstr "crt"), ("action", .pstr "svc reload"),
   ("ca_file", .pstr "/wd/c7.ca"), ("cert_file", .pstr "/wd/c7.crt"),
   ("key_file", .pstr "/wd/c7.key")]

/-- The C7 scenario: one group, current certificate, two stale targets with
the identical action string. -/
def configC7 : Config :=
  mkConfig "dup.example" "/wd/c7.crt" 30 [actionDocC7 "/t/a.pem", actionDocC7 "/t/b.pem"]

def fsC7 : FS := [("/wd/c7.crt", ⟨"CERT100", 5⟩)]

/-- Claim C7 (code bug).  First conjunct: the actions set does collapse
duplicates — after folding the emitted action values into the set, every
value occurs exactly once if it was emitted at all, which is the claimed
exactly-once semantics of the loop body.  Second and third conjuncts: the
loop body applied to the domain configurations rebuilds both targets and
executes the shared action string exactly once, with no error.  Last
conjunct: `main` as written iterates the `(runtimeconfig, domainconfigs)`
pair, raises `KeyError` at once, and so executes no action at all. -/
theorem C7_actions_deduplicated :
    (∀ (emitted : List PyVal) (v : PyVal),
        (emitted.foldl setAdd []).count v = if v ∈ emitted then 1 else 0) ∧
    (process_run [configC7] fsC7).executed = ["svc reload"] ∧
    (process_run [configC7] fsC7).err = none ∧
    main_run (load_runtime argsDefault fsiDefault idnaOff) [configC7] fsC7 =
      ⟨fsC7, [], [], some .keyError⟩ := by
  refine ⟨?_, rfl, rfl, rfl⟩
  intro emitted v
  have := count_foldl_setAdd emitted [] v (by simp)
  simpa using this

/-- The C8 scenario target documents: the first requires the CA component
from an absent static CA file, the second does not. -/
def actionDocC8ca : Doc :=
  [("path", .pstr "/t/withca.pem"), ("user", .pstr "root"), ("group", .pstr "root"),
   ("perm", .pstr "600"), ("format", .pstr "crt, ca"), ("action", .pstr "ca-act"),
   ("ca_file", .pstr "/static/absent-ca.pem"), ("cert_file", .pstr "/wd/c8.crt"),
   ("key_file", .pstr "/wd/c8.key")]

def actionDocC8plain : Doc :=
  [("path", .pstr "/t/plain.pem"), ("user", .pstr "root"), ("group", .pstr "root"),
   ("perm", .pstr "600"), ("format", .pstr "crt"), ("action", .pstr "plain-act"),
   ("ca_file", .pstr "/static/absent-ca.pem"), ("cert_file", .pstr "/wd/c8.crt"),
   ("key_file", .pstr "/wd/c8.key")]

/-- The C8 scenario: one group, current certificate, a CA-requiring target
followed by a plain sibling target. -/
def configC8 : Config := mkConfig "c8.example" "/wd/c8.crt" 30 [actionDocC8ca, actionDocC8plain]

def fsC8 : FS := [("/wd/c8.crt", ⟨"CERT100", 5⟩)]

/-- Claim C8 (code bug).  The loop body applied to the domain
configurations raises the missing-CA-file error at the first target, and
the error propagates: the run ends with the sibling target never written
(its path stays absent from the filesystem, while the failing target was
truncated and partially written) and no action executed.  The last
conjunct: `main` as written iterates the `(runtimeconfig, domainconfigs)`
pair and raises `KeyError` before even the first target is processed. -/
theorem C8_missing_ca_aborts_run :
    (process_run [configC8] fsC8).err = some (.missingCAFile "/static/absent-ca.pem") ∧
    fsGet (process_run [configC8] fsC8).fs "/t/plain.pem" = none ∧
    fsGet (process_run [configC8] fsC8).fs "/t/withca.pem" = some ⟨"CERT100", 0⟩ ∧
    (process_run [configC8] fsC8).executed = [] ∧
    main_run (load_runtime argsDefault fsiDefault idnaOff) [configC8] fsC8 =
      ⟨fsC8, [], [], some .keyError⟩ := by
  refine ⟨rfl, rfl, rfl, rfl, rfl⟩

/- ===== cert_put write behaviour (claim C9) ===== -/

theorem alSet_alSet_same {α : Type} (d : List (String × α)) (k : String) (v w : α) :
    alSet (alSet d k v) k w = alSet d k w := by
  induction d with
  | nil => simp [alSet]
  | cons hd tl ih =>
    cases hk : (hd.1 == k) with
    | true => simp [alSet, hk]
    | false => simp [alSet, hk, ih]

theorem fsGet_fsWrite_ne (fs : FS) (p q c : String) (h : (q == p) = false) :
    fsGet (fsWrite fs p c) q = fsGet fs q :=
  alGet_alSet_ne fs p q ⟨c, 0⟩ h

theorem fsWrite_fsWrite (fs : FS) (p : String) (c d : String) :
    fsWrite (fsWrite fs p c) p d = fsWrite fs p d :=
  alSet_alSet_same fs p ⟨c, 0⟩ ⟨d, 0⟩

/-- The concatenation of the components a format token list names, read
from the filesystem: `crt` and `key` contribute the content of their source
file, any other token contributes nothing; `none` when a named source file
is missing.  This renders the claim wording `the concatenation of the
components listed before the first ca token`. -/
def concatComponents (fs : FS) (crtP keyP : String) : List String → Option String
  | [] => some ""
  | t :: ts =>
    if t = "crt" then
      match fsGet fs crtP with
      | none => none
      | some fd => (concatComponents fs crtP keyP ts).map (fun r => fd.content ++ r)
    else if t = "key" then
      match fsGet fs keyP with
      | none => none
      | some fd => (concatComponents fs crtP keyP ts).map (fun r => fd.content ++ r)
    else concatComponents fs crtP keyP ts

theorem concatComponents_fsWrite (fs : FS) (path c crtP keyP : String)
    (h1 : (crtP == path) = false) (h2 : (keyP == path) = false) :
    ∀ tokens, concatComponents (fsWrite fs path c) crtP keyP tokens =
      concatComponents fs crtP keyP tokens := by
  intro tokens
  induction tokens with
  | nil => rfl
  | cons t ts ih =>
    unfold concatComponents
    rw [fsGet_fsWrite_ne _ _ _ _ h1, fsGet_fsWrite_ne _ _ _ _ h2]
    split
    · cases fsGet fs crtP <;> simp [ih]
    · split
      · cases fsGet fs keyP <;> simp [ih]
      · exact ih

theorem cert_put_write_before_ca (fs : FS) (crtP keyP caP : String)
    (hmiss : fsGet fs caP = none) :
    ∀ (pre rest : List String) (acc content : String),
      "ca" ∉ pre →
      concatComponents fs crtP keyP pre = some content →
      cert_put_write fs (.pstr crtP) (.pstr keyP) (.pstr caP) acc (pre ++ "ca" :: rest) =
        (acc ++ content, some (.missingCAFile caP)) := by
  intro pre
  induction pre with
  | nil =>
    intro rest acc content _ hcc
    unfold concatComponents at hcc
    injection hcc with hcc
    subst hcc
    rw [String.append_empty]
    simp only [List.nil_append]
    unfold cert_put_write
    simp only [reduceCtorEq, String.reduceEq, if_neg, not_false_iff, if_pos, expectStr]
    rw [hmiss]
  | cons t ts ih =>
    intro rest acc content hpre hcc
    have hpre' : "ca" ∉ ts := fun hm => hpre (List.mem_cons_of_mem t hm)
    have htca : ¬(t = "ca") := fun he => hpre (he ▸ List.mem_cons_self t ts)
    unfold concatComponents at hcc
    by_cases ht1 : t = "crt"
    · subst ht1
      rw [if_pos rfl] at hcc
      cases hg : fsGet fs crtP with
      | none => rw [hg] at hcc; exact Option.noConfusion hcc
      | some fd =>
        rw [hg] at hcc
        cases hrec : concatComponents fs crtP keyP ts with
        | none => rw [hrec] at hcc; simp at hcc
        | some content' =>
          rw [hrec] at hcc
          simp only [Option.map_some] at hcc
          injection hcc with hcc
          subst hcc
          simp only [List.cons_append]
          unfold cert_put_write
          rw [if_pos rfl]
          simp only [expectStr]
          rw [hg]
          dsimp only
          rw [ih rest (acc ++ fd.content) content' hpre' hrec]
          rw [String.append_assoc]
    · by_cases ht2 : t = "key"
      · subst ht2
        rw [if_neg (by decide), if_pos rfl] at hcc
        cases hg : fsGet fs keyP with
        | none => rw [hg] at hcc; exact Option.noConfusion hcc
        | some fd =>
          rw [hg] at hcc
          cases hrec : concatComponents fs crtP keyP ts with
          | none => rw [hrec] at hcc; simp at hcc
          | some content' =>
            rw [hrec] at hcc
            simp only [Option.map_some] at hcc
            injection hcc with hcc
            subst hcc
            simp only [List.cons_append]
            unfold cert_put_write
            rw [if_neg (by decide), if_pos rfl]
            simp only [expectStr]
            rw [hg]
            dsimp only
            rw [ih rest (acc ++ fd.content) content' hpre' hrec]
            rw [String.append_assoc]
      · rw [if_neg ht1, if_neg ht2] at hcc
        simp only [List.cons_append]
        unfold cert_put_write
        rw [if_neg ht1, if_neg ht2, if_neg htca]
        exact ih rest acc content hpre' hcc

/-- Claim C9 (confirmed): `cert_put` opens the target for writing —
truncating it — before reading any source, so when the format list contains
`ca` and the static CA file is absent, the raised missing-CA error leaves
the target holding exactly the concatenation of the components listed
before the first `ca` token, read from the filesystem as it stood (the
target path itself being distinct from the source paths): whatever the
target held before is gone. -/
theorem C9_cert_put_truncates_then_fails (fs : FS) (settings : Doc)
    (caP pathP keyP crtP fmtS : String) (userV groupV permV actV : PyVal)
    (hca : alGet settings "ca_file" = some (.pstr caP))
    (huser : alGet settings "user" = some userV)
    (hgroup : alGet settings "group" = some groupV)
    (hperm : alGet settings "perm" = some permV)
    (hpath : alGet settings "path" = some (.pstr pathP))
    (hfmt : alGet settings "format" = some (.pstr fmtS))
    (hact : alGet settings "action" = some actV)
    (hkey : alGet settings "key_file" = some (.pstr keyP))
    (hcrt : alGet settings "cert_file" = some (.pstr crtP))
    (pre rest : List String)
    (htok : (pySplit ',' fmtS).map pyStrip = pre ++ "ca" :: rest)
    (hpre : "ca" ∉ pre)
    (hmiss : fsGet fs caP = none)
    (hne1 : (crtP == pathP) = false) (hne2 : (keyP == pathP) = false)
    (hne3 : (caP == pathP) = false)
    (content : String)
    (hcontent : concatComponents fs crtP keyP pre = some content) :
    cert_put fs settings = (fsWrite fs pathP content, .error (.missingCAFile caP)) := by
  unfold cert_put
  simp only [pyGetE, hca, huser, hgroup, hperm, hpath, hfmt, hact, hkey, hcrt,
    expectStr, bind, Except.bind, pure, Except.pure]
  rw [htok]
  have hmiss1 : fsGet (fsWrite fs pathP "") caP = none := by
    rw [fsGet_fsWrite_ne _ _ _ _ hne3]; exact hmiss
  have hcontent1 : concatComponents (fsWrite fs pathP "") crtP keyP pre = some content := by
    rw [concatComponents_fsWrite _ _ _ _ _ hne1 hne2]; exact hcontent
  rw [cert_put_write_before_ca (fsWrite fs pathP "") crtP keyP caP hmiss1 pre rest ""
    content hpre hcontent1]
  rw [fsWrite_fsWrite]
  rw [show ("" : String) ++ content = content from by
    cases content with
    | mk data => rfl]

/-- A concrete C9 instance: format `key, ca, crt`, CA absent, target
pre-existing with old content. -/
def settingsC9 : Doc :=
  [("ca_file", .pstr "/s/absent.ca"), ("user", .pstr "root"), ("group", .pstr "root"),
   ("perm", .pstr "600"), ("path", .pstr "/t/bundle.pem"), ("format", .pstr "key, ca, crt"),
   ("action", .pnone), ("key_file", .pstr "/s/k.pem"), ("cert_file", .pstr "/s/c.pem")]

def fsC9 : FS :=
  [("/s/k.pem", ⟨"KEYDATA", 1⟩), ("/s/c.pem", ⟨"CRTDATA", 1⟩), ("/t/bundle.pem", ⟨"OLD", 1⟩)]

/-- Witness for C9: the target ends up holding exactly the key component —
the one listed before the `ca` token — and the old target content is
gone. -/
theorem C9_witness :
    cert_put fsC9 settingsC9 =
      (fsWrite fsC9 "/t/bundle.pem" "KEYDATA", .error (.missingCAFile "/s/absent.ca")) :=
  C9_cert_put_truncates_then_fails fsC9 settingsC9 "/s/absent.ca" "/t/bundle.pem"
    "/s/k.pem" "/s/c.pem" "key, ca, crt" (.pstr "root") (.pstr "root") (.pstr "600")
    .pnone rfl rfl rfl rfl rfl rfl rfl rfl rfl ["key"] ["crt"] rfl (by decide) rfl
    (by decide) (by decide) (by decide) "KEYDATA" rfl

/- ===== Handler configuration (claim C10) ===== -/

/-- The handler value claim C10 describes, over a given override document
list: a value-semantics copy of the global configuration, updated by the
first domain-agnostic `mode` document of the list, then by the first `mode`
document whose `domain` equals the original (pre-translation) name of the
domain under the translation mapping. -/
def claimHandler (g : GlobalConfig) (docs : List Doc) (trans : List (String × String))
    (domain : String) : Doc :=
  let hcs := docs.filter (fun x => alContains x "mode")
  let base := g.fields
  let base := match hcs.filter (fun x => !alContains x "domain") with
              | gg :: _ => alUpdate base gg
              | [] => base
  let orig := alGetD trans domain domain
  match hcs.filter (fun x =>
      alContains x "domain" && alGet x "domain" == some (.pstr orig)) with
  | ss :: _ => alUpdate base ss
  | [] => base

theorem alGet_foldl_alSet {α : Type} (f : String → α) :
    ∀ (l : List String) (hs : List (String × α)) (k : String),
      alGet (l.foldl (fun acc d => alSet acc d (f d)) hs) k =
        if k ∈ l then some (f k) else alGet hs k := by
  intro l
  induction l with
  | nil => intro hs k; simp
  | cons d tl ih =>
    intro hs k
    simp only [List.foldl]
    rw [ih]
    by_cases hk : k ∈ tl
    · simp [hk, List.mem_cons]
    · by_cases hkd : k = d
      · subst hkd
        simp [alGet_alSet_same, List.mem_cons, hk]
      · have hbe : (k == d) = false := beq_eq_false_iff_ne.mpr hkd
        rw [alGet_alSet_ne _ _ _ _ hbe]
        simp [List.mem_cons, hkd, hk]

theorem keys_alSet {α : Type} (d : List (String × α)) (k : String) (v : α) :
    (alSet d k v).map Prod.fst =
      if alContains d k then d.map Prod.fst else d.map Prod.fst ++ [k] := by
  induction d with
  | nil => simp [alSet, alContains, alGet]
  | cons hd tl ih =>
    cases hk : (hd.1 == k) with
    | true =>
      have he := eq_of_beq hk
      simp [alSet, alContains, alGet, hk, he]
    | false =>
      simp only [alSet, hk, Bool.false_eq_true, if_neg, not_false_iff, List.map_cons, ih]
      have hcc : alContains (hd :: tl) k = alContains tl k := by
        simp [alContains, alGet, hk]
      rw [hcc]
      cases hc : alContains tl k <;> simp

theorem alContains_eq_false_iff {α : Type} (d : List (String × α)) (k : String) :
    alContains d k = false ↔ k ∉ d.map Prod.fst := by
  induction d with
  | nil => simp [alContains, alGet]
  | cons hd tl ih =>
    cases hk : (hd.1 == k) with
    | true =>
      have he := eq_of_beq hk
      simp [alContains, alGet, hk, he]
    | false =>
      have hne : ¬ k = hd.1 := fun he => (by simp [he] at hk : ¬ True) trivial
      have hcc : alContains (hd :: tl) k = alContains tl k := by
        simp [alContains, alGet, hk]
      rw [hcc, ih]
      simp [List.mem_cons, hne]

theorem keys_foldl_alSet_nodup {α : Type} (f : String → α) :
    ∀ (l : List String) (hs : List (String × α)), (hs.map Prod.fst).Nodup →
      ((l.foldl (fun acc d => alSet acc d (f d)) hs).map Prod.fst).Nodup := by
  intro l
  induction l with
  | nil => intro hs h; simpa using h
  | cons d tl ih =>
    intro hs h
    simp only [List.foldl]
    apply ih
    rw [keys_alSet]
    cases hc : alContains hs d with
    | true => simpa using h
    | false =>
      have hd : d ∉ hs.map Prod.fst := (alContains_eq_false_iff hs d).mp hc
      simp [List.nodup_append, h, hd]

theorem alContains_foldl_alSet {α : Type} (f : String → α) (l : List String) (k : String) :
    alContains (l.foldl (fun acc d => alSet acc d (f d)) []) k = true ↔ k ∈ l := by
  unfold alContains
  rw [alGet_foldl_alSet]
  by_cases hk : k ∈ l <;> simp [hk, alGet]

theorem alGet_foldl_alSet_mem {α : Type} (f : String → α) (l : List String) (k : String)
    (hk : k ∈ l) :
    alGet (l.foldl (fun acc d => alSet acc d (f d)) []) k = some (f k) := by
  rw [alGet_foldl_alSet]
  simp [hk]

/-- The C10 document: a `mode` override document that also defines a
deployment `path`. -/
def docC10 : Doc := [("mode", .pstr "standalone"), ("path", .pstr "/tgt")]

/-- Claim C10 is false on the code as stated: the resolved handler
configuration of the domain is not the global configuration updated by the
`mode` override document as written, because that document, also defining
`path`, was mutated in place by `complete_action_config` before the handler
section read it — the handler picks up the injected `ca_file`, `cert_file`,
`key_file` and default `action` entries as well. -/
theorem C10_counterexample :
    (parse_config_entry ⟨"example.com", [docC10]⟩ emptyGlobal rcBase idnaOff).map
        (fun c => alGet c.handlers "example.com" ==
          some (claimHandler emptyGlobal [docC10] [] "example.com")) = .ok false := by
  rfl

/-- Claim C10 amended: every successfully resolved domain-group
configuration has exactly one handler configuration per domain of its
resolved domain list — the handler dictionary's keys are exactly the
resolved domains, without duplicates — and each handler value is an
independent value-semantics copy of the global configuration updated first
by the first domain-agnostic `mode` override document and then by the first
`mode` document whose `domain` equals the original name of that domain,
where the documents are taken in their state at handler-construction time:
a document that also defines `path` has by then been completed in place
with the group's `ca_file`, `cert_file`, `key_file`, the action defaults
and a default `action` of None. -/
theorem C10_amended_handlers (e : Entry) (g : GlobalConfig) (rc : RuntimeConfig)
    (env : IdnaEnv) (c : Config) (h : parse_config_entry e g rc env = .ok c) :
    ((c.handlers.map Prod.fst).Nodup ∧
      ∀ d, alContains c.handlers d = true ↔ d ∈ c.domainlist) ∧
    ∀ d, d ∈ c.domainlist →
      alGet c.handlers d =
        some (claimHandler g
          (e.localconfig.map (fun x =>
            if alContains x "path" then
              complete_action_config x c.ca_file c.cert_file c.key_file c.defaults
            else x))
          c.domaintranslation d) := by
  simp only [parse_config_entry] at h
  split at h
  · exact Except.noConfusion h
  · split at h
    · exact Except.noConfusion h
    · split at h
      · exact Except.noConfusion h
      · injection h with h
        subst h
        refine ⟨⟨?_, ?_⟩, ?_⟩
        · exact keys_foldl_alSet_nodup _ _ [] (by simp)
        · intro d
          exact alContains_foldl_alSet _ _ d
        · intro d hd
          exact alGet_foldl_alSet_mem _ _ d hd

/-- The configuration resolved from the C10 entry. -/
def configC10 : Config :=
  match parse_config_entry ⟨"example.com", [docC10]⟩ emptyGlobal rcBase idnaOff with
  | .ok c => c
  | .error _ => default

/-- Witness for the amended C10 at the concrete entry: the handler value is
the global configuration updated by the completed document. -/
theorem C10_amended_witness :
    alGet configC10.handlers "example.com" =
      some (claimHandler emptyGlobal
        ([docC10].map (fun x =>
          if alContains x "path" then
            complete_action_config x configC10.ca_file configC10.cert_file
              configC10.key_file configC10.defaults
          else x))
        configC10.domaintranslation "example.com") :=
  (C10_amended_handlers ⟨"example.com", [docC10]⟩ emptyGlobal rcBase idnaOff configC10
    rfl).2 "example.com" (by decide)

end Acertmgr
